import Mathlib

/-!
Formal model of the core algorithms of the event-extraction annotation tool
(src/app.py): split planning (`generate_split_metadata`), assignment
resolution (`get_annotator_split_with_iaa`), agreement metrics
(`calculate_cohen_kappa`, `calculate_fleiss_kappa`, `calculate_trigger_f1`)
and majority-vote merging (`resolve_overlap_item`).

Modelling conventions, used throughout:
* Python floats are modelled as exact rationals (`ℚ`); `round(x, 3)` becomes
  `round3` below.  None of the properties proved here depends on the
  tie-breaking rule of binary floating-point rounding.
* The global Mersenne Twister, reseeded with `random.seed(SPLIT_SEED)` at the
  top of `generate_split_metadata`, is deterministic: the draws it supplies to
  each call site are a fixed function of the seed and the arguments.  They are
  modelled as the explicit function parameters of a `PRNG` value
  (`random.sample`, the `random.random()` tie-break draws, `random.shuffle`),
  together with the guarantees the library documents for them (membership,
  distinctness, permutation), stated as hypotheses where a proof needs them.
* `datetime.utcnow().isoformat()` is modelled as an explicit `now : String`
  parameter.
* A JSON object that may lack a key is modelled with `Option`; JSON dicts
  keyed by ids are modelled as association lists in insertion order.
* Python's stable `list.sort`/`sorted` are modelled by `List.insertionSort`,
  which is also stable.
* The Python identifier `annotation` is spelled `ann`/`AnnValue` here, and
  `agreement_ratio` is spelled `agreement_str` (the original spellings are not
  available in this development); everything else keeps the source's names.
-/

namespace AppModel

/-- An input item (`data/input_data.json`).  `model_prediction` is an opaque
JSON payload, modelled as an uninterpreted string. -/
structure Item where
  id : Nat
  sentence : String := ""
  tokens : List String := []
  model_prediction : String := ""
deriving DecidableEq

/-- The value a human annotator submits for one item: the JSON object with
keys `event_type`, `trigger_indices`, `not_in_list`, `annotated_at`.
`event_type = none` models a missing or null key; a missing `trigger_indices`
key and an empty list coincide (the source always reads it with
`.get('trigger_indices', [])`), and similarly for `not_in_list`. -/
structure AnnValue where
  event_type : Option String := none
  trigger_indices : List Nat := []
  not_in_list : Bool := false
  annotated_at : String := ""
deriving DecidableEq

/-- One stored record of an annotator's file: the item's denormalised fields
plus the `annotation` value.  `ann = none` models a record without the
`annotation` key. -/
structure AnnRecord where
  id : Nat
  sentence : String := ""
  tokens : List String := []
  model_prediction : String := ""
  ann : Option AnnValue := none
deriving DecidableEq

/-- The configuration fields `generate_split_metadata` consumes.  The two
`Option` fields model `config.get('iaa_overlap_percent', 15)` and
`config.get('overlap_annotators', 3)`. -/
structure Config where
  num_annotators : Nat
  iaa_overlap_percent : Option ℚ := none
  overlap_annotators : Option Nat := none
deriving DecidableEq

/-- The `config_snapshot` field persisted inside the split metadata. -/
structure ConfigSnapshot where
  num_annotators : Nat
  iaa_overlap_percent : ℚ
  overlap_annotators : Nat
  total_items : Nat
deriving DecidableEq

/-- The split metadata (`split_metadata.json`).  JSON string keys
`str(item_id)` / `str(annotator_id)` are modelled by the numbers themselves;
both association lists are in insertion order. -/
structure Metadata where
  overlap_item_ids : List Nat
  overlap_assignments : List (Nat × List Nat)
  unique_assignments : List (Nat × List Nat)
  generated_at : String
  seed : Nat
  config_snapshot : ConfigSnapshot
deriving DecidableEq

/-- The draws the seeded global random generator supplies to
`generate_split_metadata` after `random.seed(SPLIT_SEED)`:
`sample population k` models `random.sample(population, k)`, `tiebreak r i`
the `random.random()` float drawn for annotator `i` while distributing the
`r`-th overlap item, and `shuffle` the `random.shuffle` of the unique item
ids.  For a fixed seed all three are fixed functions. -/
structure PRNG where
  sample : List Nat → Nat → List Nat
  tiebreak : Nat → Nat → ℚ
  shuffle : List Nat → List Nat

/-- `SPLIT_SEED = 42`. -/
def SPLIT_SEED : Nat := 42

/-- Python's `round(x, 3)` over exact rationals (half-up; the claims settled
here do not depend on the tie-breaking rule). -/
def round3 (q : ℚ) : ℚ := (⌊q * 1000 + 1 / 2⌋ : ℤ) / 1000

/-- Python's stable `sorted` on integer lists. -/
def pySorted (l : List Nat) : List Nat := l.insertionSort (· ≤ ·)

/-- Lexicographic strict comparison of code-point lists. -/
def natListLt : List Nat → List Nat → Bool
  | [], [] => false
  | [], _ :: _ => true
  | _ :: _, [] => false
  | a :: as, b :: bs => if a < b then true else if b < a then false else natListLt as bs

/-- Python's `<=` on strings: lexicographic comparison by code points. -/
def strLeB (a b : String) : Bool := !(natListLt (b.data.map Char.toNat) (a.data.map Char.toNat))

/-- Python's stable `sorted` on string lists. -/
def pySortedStr (l : List String) : List String :=
  l.insertionSort (fun a b => strLeB a b = true)

/-- The comparison behind `annotator_scores.sort(key=lambda x: (x[1], x[2]))`:
compare the `(overlap count, random tie-break)` part lexicographically. -/
def scoreLE (x y : Nat × Nat × ℚ) : Prop :=
  x.2.1 < y.2.1 ∨ (x.2.1 = y.2.1 ∧ x.2.2 ≤ y.2.2)

instance : DecidableRel scoreLE := fun x y => by
  unfold scoreLE; infer_instance

/-- One round of overlap distribution: build
`[(i, annotator_overlap_counts[i], random.random()) for i in range(num_annotators)]`,
sort it stably by `(count, tiebreak)` and keep the first
`overlap_annotators` annotator indices. -/
def selectAnnotators (tb : Nat → ℚ) (counts : Nat → Nat)
    (num_annotators overlap_annotators : Nat) : List Nat :=
  let annotator_scores := (List.range num_annotators).map (fun i => (i, counts i, tb i))
  ((annotator_scores.insertionSort scoreLE).take overlap_annotators).map (fun a => a.1)

/-- The `for item_id in overlap_item_ids` loop: assign each overlap item to
the selected annotators and bump their running overlap counts.  `round` counts
the iterations (it indexes the tie-break draws); `counts` is
`annotator_overlap_counts`. -/
def overlapFold (prng : PRNG) (num_annotators overlap_annotators : Nat) :
    List Nat → Nat → (Nat → Nat) → List (Nat × List Nat)
  | [], _, _ => []
  | item_id :: rest, round, counts =>
    let sel := selectAnnotators (prng.tiebreak round) counts num_annotators overlap_annotators
    (item_id, sel) ::
      overlapFold prng num_annotators overlap_annotators rest (round + 1)
        (fun i => if i ∈ sel then counts i + 1 else counts i)

/-- The round-robin distribution of the (shuffled) unique item ids:
`unique_assignments[str(i % num_annotators)].append(item_id)` for each index
`i`, so annotator `a` receives exactly the ids at positions `≡ a` modulo
`num_annotators`, in order. -/
def roundRobin (num_annotators : Nat) (ids : List Nat) : List (Nat × List Nat) :=
  (List.range num_annotators).map (fun a =>
    (a, (ids.enum.filter (fun p => p.1 % num_annotators = a)).map (fun p => p.2)))

/-- `generate_split_metadata(all_data, config)` (src/app.py:72-136).
`math.ceil` over floats becomes `Rat.ceil` over exact rationals. -/
def generate_split_metadata (prng : PRNG) (all_data : List Item) (config : Config)
    (now : String) : Metadata :=
  let total_items := all_data.length
  let num_annotators := config.num_annotators
  let overlap_percent : ℚ := (config.iaa_overlap_percent.getD 15) / 100
  let overlap_annotators := config.overlap_annotators.getD 3
  let overlap_count := (Rat.ceil ((total_items : ℚ) * overlap_percent)).toNat
  let all_item_ids := all_data.map (fun it => it.id)
  let overlap_item_ids :=
    pySorted (prng.sample all_item_ids (min overlap_count all_item_ids.length))
  let unique_item_ids := all_item_ids.filter (fun id => id ∉ overlap_item_ids)
  let overlap_assignments :=
    overlapFold prng num_annotators overlap_annotators overlap_item_ids 0 (fun _ => 0)
  let unique_assignments := roundRobin num_annotators (prng.shuffle unique_item_ids)
  { overlap_item_ids := overlap_item_ids
    overlap_assignments := overlap_assignments
    unique_assignments := unique_assignments
    generated_at := now
    seed := SPLIT_SEED
    config_snapshot :=
      { num_annotators := num_annotators
        iaa_overlap_percent := config.iaa_overlap_percent.getD 15
        overlap_annotators := overlap_annotators
        total_items := total_items } }

/-- The part of the persisted file store the planner and resolver touch. -/
structure Store where
  split_metadata : Option Metadata := none
deriving DecidableEq

/-- `ensure_split_metadata()` (src/app.py:139-154): return the persisted plan
if one exists, otherwise generate one and persist it. -/
def ensure_split_metadata (prng : PRNG) (config : Config) (all_data : List Item)
    (now : String) (st : Store) : Metadata × Store :=
  match st.split_metadata with
  | some m => (m, st)
  | none =>
    let m := generate_split_metadata prng all_data config now
    (m, { st with split_metadata := some m })

/-- `data_by_id[item_id]` after `data_by_id = {item['id']: item for item in data}`
(later entries win), `none` when the id is absent. -/
def dataById (data : List Item) (item_id : Nat) : Option Item :=
  (data.filter (fun it => it.id = item_id)).getLast?

/-- `get_annotator_split_with_iaa(annotator_id, data)` (src/app.py:157-190).
`shuffleA a` models the shuffle of the combined list after
`random.seed(SPLIT_SEED + a)` — a fixed function of the annotator id. -/
def get_annotator_split_with_iaa (prng : PRNG) (config : Config) (all_input : List Item)
    (now : String) (shuffleA : Nat → List Item → List Item) (annotator_id : Nat)
    (data : List Item) (st : Store) : List Item × Store :=
  let ms := ensure_split_metadata prng config all_input now st
  let metadata := ms.1
  let overlap_items := metadata.overlap_assignments.filterMap
    (fun p => if annotator_id ∈ p.2 then dataById data p.1 else none)
  let unique_item_ids := (metadata.unique_assignments.lookup annotator_id).getD []
  let unique_items := unique_item_ids.filterMap (fun id => dataById data id)
  let all_items := overlap_items ++ unique_items
  (shuffleA annotator_id all_items, ms.2)

/-- The elements of a list in order of first occurrence — the key order of a
Python `Counter` or `dict` built from the list, and the elements of the
Python `set` of the list. -/
def firstOccurrences {α : Type} [DecidableEq α] : List α → List α
  | [] => []
  | a :: as => a :: (firstOccurrences as).filter (fun b => b ≠ a)

/-- The number of occurrences of `x` in `l` (Python `Counter(l)[x]`), with the
equality test fixed to the decidable one. -/
def countOf {α : Type} [DecidableEq α] (l : List α) (x : α) : Nat := l.count x

/-- One step of scanning the counter entries for the best-ranked one: keep
the incumbent unless the new element's count is strictly larger. -/
def mcStep {α : Type} [DecidableEq α] (l : List α) :
    Option (α × Nat) → α → Option (α × Nat) :=
  fun acc a =>
    match acc with
    | none => some (a, l.count a)
    | some (b, c) => if l.count a > c then some (a, l.count a) else some (b, c)

/-- `Counter(l).most_common(1)[0]`: the first element, in first-occurrence
order, whose count is maximal (Python's sort by descending count is stable),
paired with its count; `none` for an empty list. -/
def most_common1 {α : Type} [DecidableEq α] (l : List α) : Option (α × Nat) :=
  (firstOccurrences l).foldl (mcStep l) none

/-- One collected vote for an overlap item:
`{'annotator_id': ..., 'annotator_name': ..., 'annotation': ...}` (the
collection loops only keep records that do have the `annotation` key). -/
structure VoteEntry where
  annotator_id : Nat
  annotator_name : String := ""
  ann : AnnValue
deriving DecidableEq

/-- The merged record `resolve_overlap_item` returns (the spread item fields
are kept as `item`; `agreement_str` is the source's `agreement_ratio`). -/
structure MergedOverlapItem where
  item : Item
  ann : AnnValue
  resolution_status : String
  annotator_votes : List (String × Option String × List Nat)
  agreement_str : String
deriving DecidableEq

/-- `resolve_overlap_item(item_data, annotations)` (src/app.py:581-625). -/
def resolve_overlap_item (item_data : Item) (anns : List VoteEntry) : MergedOverlapItem :=
  let event_type_counts := anns.map (fun a => a.ann.event_type)
  let most_common_type := (most_common1 event_type_counts).getD (none, 0)
  let total_votes := anns.length
  let majority_votes := most_common_type.2
  let has_majority := 2 * majority_votes > total_votes
  let trigger_counts := anns.map (fun a => pySorted a.ann.trigger_indices)
  let most_common_trigger := (most_common1 trigger_counts).getD ([], 0)
  let resolution_status := if has_majority then "majority_vote" else "needs_adjudication"
  { item := item_data
    ann :=
      { event_type := most_common_type.1
        trigger_indices := most_common_trigger.1
        not_in_list := (most_common_type.1).isNone && anns.any (fun a => a.ann.not_in_list) }
    resolution_status := resolution_status
    annotator_votes := anns.map (fun a => (a.annotator_name, a.ann.event_type, a.ann.trigger_indices))
    agreement_str := toString majority_votes ++ "/" ++ toString total_votes }

/-- Whether a stored record has the `annotation` key. -/
def hasAnn (a : AnnRecord) : Bool := a.ann.isSome

/-- `{a['id'] for a in annotations if 'annotation' in a}`. -/
def annIds (l : List AnnRecord) : Finset Nat :=
  ((l.filter hasAnn).map (fun a => a.id)).toFinset

/-- The item ids annotated by both annotators (`ids1 & ids2`). -/
def commonIds (l1 l2 : List AnnRecord) : Finset Nat := annIds l1 ∩ annIds l2

/-- The first annotator's annotated ids without repetition, as a list. -/
def nodupAnnIds (l : List AnnRecord) : List Nat :=
  firstOccurrences ((l.filter hasAnn).map (fun a => a.id))

/-- The set `common_ids = ids1 & ids2` as a duplicate-free list.  Python
iterates the set in unspecified order; every use folds a commutative
operation over it, so the model fixes the first-occurrence order. -/
def commonList (l1 l2 : List AnnRecord) : List Nat :=
  (nodupAnnIds l1).filter (fun i => i ∈ annIds l2)

/-- `values1.get(i)` for the dict
`{a['id']: a['annotation'].get(key) for a in annotations if a['id'] in common_ids and 'annotation' in a}`
evaluated at a common id `i` (later records win); the compared key is the
function `k` (`k = fun v => v.event_type` is the default `key='event_type'`). -/
def valueAt (k : AnnValue → Option String) (l : List AnnRecord) (i : Nat) : Option String :=
  match (l.filter (fun a => a.id == i && hasAnn a)).getLast? with
  | some r =>
    match r.ann with
    | some v => k v
    | none => none
  | none => none

/-- `agreements`: the number of common items on which the two stored values —
including the value `none` for a missing key — coincide. -/
def agreeCount (k : AnnValue → Option String) (l1 l2 : List AnnRecord) : Nat :=
  ((commonIds l1 l2).filter (fun i => valueAt k l1 i = valueAt k l2 i)).card

/-- `all_values = set(values1.values()) | set(values2.values())`. -/
def allVals (k : AnnValue → Option String) (l1 l2 : List AnnRecord) : Finset (Option String) :=
  (commonIds l1 l2).image (valueAt k l1) ∪ (commonIds l1 l2).image (valueAt k l2)

/-- The expected chance agreement `pe = Σ_val p1(val) * p2(val)`. -/
def peVal (k : AnnValue → Option String) (l1 l2 : List AnnRecord) : ℚ :=
  let common := commonIds l1 l2
  let n : ℚ := common.card
  ∑ v ∈ allVals k l1 l2,
    (((common.filter (fun i => valueAt k l1 i = v)).card : ℚ) / n) *
      (((common.filter (fun i => valueAt k l2 i = v)).card : ℚ) / n)

/-- `calculate_cohen_kappa(annotations1, annotations2, key)`
(src/app.py:275-316). -/
def calculate_cohen_kappa (k : AnnValue → Option String)
    (annotations1 annotations2 : List AnnRecord) : Option ℚ :=
  if annotations1.isEmpty || annotations2.isEmpty then none
  else
    let common := commonIds annotations1 annotations2
    if common.card < 2 then none
    else
      let n : ℚ := common.card
      let po : ℚ := (agreeCount k annotations1 annotations2 : ℚ) / n
      let pe := peVal k annotations1 annotations2
      if pe = 1 then some 1
      else some (round3 ((po - pe) / (1 - pe)))

/-- `set(ann_by_id[item_id]['annotation'].get('trigger_indices', []))` where
`ann_by_id = {a['id']: a for a in annotations}` keeps every record (also those
without the `annotation` key) and later records win.  `none` models the
`KeyError` the subscript `['annotation']` raises when the winning record lacks
the key. -/
def itemTriggers (l : List AnnRecord) (item_id : Nat) : Option (Finset Nat) :=
  match (l.filter (fun a => a.id == item_id)).getLast? with
  | some r =>
    match r.ann with
    | some v => some v.trigger_indices.toFinset
    | none => none
  | none => none

/-- `calculate_trigger_f1(annotations1, annotations2)` (src/app.py:389-439).
The outer `Option` models a raised exception (`none` = the call raises a
`KeyError`); the inner one the function's `None` ("undefined") result.
Python iterates the set `common_ids` in unspecified order; the per-item
contributions are summed, so the result is order-independent and the set is
iterated here as `commonList`.  `count` equals the number of common ids, which
is positive in the computing branch, so the `count == 0` guard of the source
is unreachable there. -/
def calculate_trigger_f1 (annotations1 annotations2 : List AnnRecord) : Option (Option ℚ) :=
  if annotations1.isEmpty || annotations2.isEmpty then some none
  else
    let common := commonList annotations1 annotations2
    if common = [] then some none
    else
      if common.all
          (fun i => (itemTriggers annotations1 i).isSome && (itemTriggers annotations2 i).isSome) then
        let contribs := common.map (fun i =>
          let triggers1 := (itemTriggers annotations1 i).getD ∅
          let triggers2 := (itemTriggers annotations2 i).getD ∅
          if triggers1 = ∅ ∧ triggers2 = ∅ then ((1 : ℚ), (1 : ℚ))
          else
            if triggers1 ≠ ∅ ∧ triggers2 ≠ ∅ then
              (((triggers1 ∩ triggers2).card : ℚ) / triggers1.card,
                ((triggers1 ∩ triggers2).card : ℚ) / triggers2.card)
            else (0, 0))
        let count : ℚ := common.length
        let avg_precision := (contribs.map (fun p => p.1)).sum / count
        let avg_recall := (contribs.map (fun p => p.2)).sum / count
        if avg_precision + avg_recall = 0 then some (some 0)
        else some (some (round3 (2 * (avg_precision * avg_recall) / (avg_precision + avg_recall))))
      else none

/-- Python truthiness of an `event_type` value: `None` and `''` are falsy. -/
def truthy : Option String → Bool
  | none => false
  | some s => !(s == "")

/-- `items_with_multi`: the items rated by at least two raters. -/
def qualifyingItems (all_anns : List (Nat × List VoteEntry)) : List (Nat × List VoteEntry) :=
  all_anns.filter (fun p => 2 ≤ p.2.length)

/-- The truthy category values appearing across the given items, with
repetitions and in encounter order. -/
def fleissCatList (k : AnnValue → Option String)
    (items : List (Nat × List VoteEntry)) : List String :=
  (items.map (fun p => p.2)).flatten.filterMap
    (fun a => if truthy (k a.ann) then k a.ann else none)

/-- The set of truthy category values appearing across the given items. -/
def fleissCategories (k : AnnValue → Option String)
    (items : List (Nat × List VoteEntry)) : Finset String :=
  (fleissCatList k items).toFinset

/-- The category × item count matrix (one row per item, one column per
category in `cats`). -/
def fleissMatrix (k : AnnValue → Option String) (cats : List String)
    (items : List (Nat × List VoteEntry)) : List (List Nat) :=
  items.map (fun p => cats.map (fun c => (p.2.filter (fun a => k a.ann == some c)).length))

/-- The sorted category list `categories = sorted(list(categories))`: the
distinct categories in Python's string order. -/
def catsSorted (k : AnnValue → Option String)
    (all_anns : List (Nat × List VoteEntry)) : List String :=
  pySortedStr (firstOccurrences (fleissCatList k (qualifyingItems all_anns)))

/-- `n = max(sum(row) for row in matrix)`: the largest number of counted
ratings on any qualifying item (`0` when there is none; the sums are
nonnegative, so folding `max` from `0` is that maximum). -/
def fleissMaxRaters (k : AnnValue → Option String)
    (all_anns : List (Nat × List VoteEntry)) : Nat :=
  ((fleissMatrix k (catsSorted k all_anns) (qualifyingItems all_anns)).map List.sum).foldr max 0

/-- `calculate_fleiss_kappa(all_annotations, key)` (src/app.py:319-386);
`all_anns` is the dict `{item_id: [votes]}` as an association list. -/
def calculate_fleiss_kappa (k : AnnValue → Option String)
    (all_anns : List (Nat × List VoteEntry)) : Option ℚ :=
  let items_with_multi := qualifyingItems all_anns
  if items_with_multi.isEmpty then none
  else
    let categories := fleissCategories k items_with_multi
    if categories.card < 2 then none
    else
      let cats := pySortedStr (firstOccurrences (fleissCatList k items_with_multi))
      let matrix := fleissMatrix k cats items_with_multi
      let n := (matrix.map List.sum).foldr max 0
      if n < 2 then none
      else
        let P_i := matrix.filterMap (fun row =>
          if row.sum < 2 then none
          else
            let sum_sq : Nat := (row.map (fun r => r * r)).sum
            some (((sum_sq : ℚ) - (row.sum : ℚ)) /
              ((row.sum : ℚ) * ((row.sum : ℚ) - 1))))
        if P_i.isEmpty then none
        else
          let P_bar := P_i.sum / (P_i.length : ℚ)
          let total_ratings : ℚ := ((matrix.map List.sum).sum : ℚ)
          let p_j := (List.range cats.length).map (fun j =>
            ((matrix.map (fun row => row.getD j 0)).sum : ℚ) / total_ratings)
          let P_e := (p_j.map (fun p => p * p)).sum
          if P_e = 1 then some 1
          else some (round3 ((P_bar - P_e) / (1 - P_e)))

/-- The default compared key, `key='event_type'`. -/
def eventTypeKey (v : AnnValue) : Option String := v.event_type

/-- A concrete deterministic draw family satisfying the guarantees of
`random.sample` / `random.shuffle`, used to instantiate theorems at concrete
inputs. -/
def detPRNG : PRNG where
  sample := fun xs n => xs.take n
  tiebreak := fun _ _ => 0
  shuffle := fun xs => xs

/-- A concrete configuration: 2 annotators, 20% overlap, multiplicity 2. -/
def cfg2 : Config :=
  { num_annotators := 2, iaa_overlap_percent := some 20, overlap_annotators := some 2 }

/-- Ten concrete items with ids 1..10. -/
def items10 : List Item := (List.range 10).map (fun i => { id := i + 1 })

/-- A concrete persisted split plan. -/
def plan0 : Metadata :=
  { overlap_item_ids := [1, 2]
    overlap_assignments := [(1, [0, 1]), (2, [0, 1])]
    unique_assignments := [(0, [3, 5]), (1, [4, 6])]
    generated_at := "t0"
    seed := SPLIT_SEED
    config_snapshot :=
      { num_annotators := 2, iaa_overlap_percent := 20, overlap_annotators := 2, total_items := 6 } }

/-- A store already holding a persisted plan. -/
def store0 : Store := { split_metadata := some plan0 }

/-- A concrete item used in the majority-vote examples. -/
def item0 : Item := { id := 1 }

/-- Vote: annotator 0 says event type A. -/
def voteA0 : VoteEntry := { annotator_id := 0, ann := { event_type := some ("A") } }

/-- Vote: annotator 1 says event type A. -/
def voteA1 : VoteEntry := { annotator_id := 1, ann := { event_type := some ("A") } }

/-- Vote: annotator 1 says event type B. -/
def voteB1 : VoteEntry := { annotator_id := 1, ann := { event_type := some ("B") } }

/-- Vote: annotator 2 says event type B. -/
def voteB2 : VoteEntry := { annotator_id := 2, ann := { event_type := some ("B") } }

/-- Vote: annotator 2 says event type C. -/
def voteC2 : VoteEntry := { annotator_id := 2, ann := { event_type := some ("C") } }

/-- A record for item 1 whose annotation omits the `event_type` key. -/
def recNone1 : AnnRecord := { id := 1, ann := some {} }

/-- A record for item 2 whose annotation omits the `event_type` key. -/
def recNone2 : AnnRecord := { id := 2, ann := some {} }

/-- A record for item 2 with event type X. -/
def recX2 : AnnRecord := { id := 2, ann := some { event_type := some ("X") } }

/-- Two records, both with the `event_type` key omitted. -/
def exN : List AnnRecord := [recNone1, recNone2]

/-- Two records: the key omitted on item 1, present on item 2. -/
def exM : List AnnRecord := [recNone1, recX2]

/-- An annotated record for item 1 followed by a second record with the same
id but without the `annotation` key (so the by-id dict keeps the bare one). -/
def badList : List AnnRecord := [{ id := 1, ann := some {} }, { id := 1 }]

/-- The property proved about `resolve_overlap_item` for claim C4: the winner
reported by `most_common1` has the maximal vote count, the resolution status
is `majority_vote` exactly when twice that count exceeds the number of votes,
and the agreement-ratio string is `"winnerCount/totalVotes"`. -/
def majorityResolutionSpec (item_data : Item) (anns : List VoteEntry) : Prop :=
  (∀ v : Option String,
      countOf (anns.map (fun a => a.ann.event_type)) v
        ≤ ((most_common1 (anns.map (fun a => a.ann.event_type))).getD (none, 0)).2) ∧
    ((resolve_overlap_item item_data anns).resolution_status = "majority_vote"
      ↔ 2 * ((most_common1 (anns.map (fun a => a.ann.event_type))).getD (none, 0)).2
          > anns.length) ∧
    (resolve_overlap_item item_data anns).agreement_str
      = toString ((most_common1 (anns.map (fun a => a.ann.event_type))).getD (none, 0)).2
          ++ "/" ++ toString anns.length

/-- The two concrete majority-vote examples of the specification: votes
{A, A, B} and votes {A, B, C}. -/
def votesAAB : List VoteEntry := [voteA0, voteA1, voteB2]

/-- Votes {A, B, C}: three different event types. -/
def votesABC : List VoteEntry := [voteA0, voteB1, voteC2]

/-- A concrete dict of per-item votes on which Fleiss' kappa is undefined even
though two qualifying items and two distinct categories exist: on each item
one of the two raters has a truthy category and the other has value `None`,
so no item has two countable ratings. -/
def fleissBad : List (Nat × List VoteEntry) :=
  [(1, [{ annotator_id := 0, ann := { event_type := some ("a") } },
        { annotator_id := 1, ann := {} }]),
   (2, [{ annotator_id := 2, ann := { event_type := some ("b") } },
        { annotator_id := 3, ann := {} }])]

/-! ## Theorems -/

/-- The `generated_at` field simply records the time of the call. -/
theorem generate_generated_at (prng : PRNG) (all_data : List Item) (config : Config)
    (now : String) :
    (generate_split_metadata prng all_data config now).generated_at = now := rfl

/-- C2 (counterexample): two calls of `generate_split_metadata` with identical
items, configuration and seeded draws, made at different wall-clock times,
produce plans that are not bit-identical: the persisted `generated_at` field
records the time of each call. -/
theorem C2_counterexample :
    generate_split_metadata detPRNG items10 cfg2 "2024-01-01T00:00:00Z"
      ≠ generate_split_metadata detPRNG items10 cfg2 "2024-01-02T00:00:00Z" := by
  intro h
  have h2 := congrArg Metadata.generated_at h
  rw [generate_generated_at, generate_generated_at] at h2
  exact absurd h2 (by decide)

/-- C2 (amended): `generate_split_metadata` is deterministic in everything but
the `generated_at` timestamp — for the same items, configuration and seeded
draws, two calls agree on the overlap ids, both assignment maps, the seed and
the configuration snapshot, whatever the two call times are. -/
theorem C2_deterministic_except_timestamp (prng : PRNG) (all_data : List Item)
    (config : Config) (now1 now2 : String) :
    (generate_split_metadata prng all_data config now1).overlap_item_ids
        = (generate_split_metadata prng all_data config now2).overlap_item_ids ∧
      (generate_split_metadata prng all_data config now1).overlap_assignments
        = (generate_split_metadata prng all_data config now2).overlap_assignments ∧
      (generate_split_metadata prng all_data config now1).unique_assignments
        = (generate_split_metadata prng all_data config now2).unique_assignments ∧
      (generate_split_metadata prng all_data config now1).seed
        = (generate_split_metadata prng all_data config now2).seed ∧
      (generate_split_metadata prng all_data config now1).config_snapshot
        = (generate_split_metadata prng all_data config now2).config_snapshot :=
  ⟨rfl, rfl, rfl, rfl, rfl⟩

/-- C9: with a persisted plan in the store, the assignment resolver leaves the
store unchanged (no side effects), and its item list depends only on the
annotator id, the plan, the live item list and the per-annotator seeded
shuffle — repeated calls in any ambient context return the same items in the
same order. -/
theorem C9_resolver_no_effects (plan : Metadata) (p1 p2 : PRNG) (c1 c2 : Config)
    (d1 d2 : List Item) (n1 n2 : String) (sh : Nat → List Item → List Item)
    (aid : Nat) (data : List Item) (st1 st2 : Store)
    (h1 : st1.split_metadata = some plan) (h2 : st2.split_metadata = some plan) :
    (get_annotator_split_with_iaa p1 c1 d1 n1 sh aid data st1).2 = st1 ∧
      (get_annotator_split_with_iaa p1 c1 d1 n1 sh aid data st1).1
        = (get_annotator_split_with_iaa p2 c2 d2 n2 sh aid data st2).1 := by
  unfold get_annotator_split_with_iaa ensure_split_metadata
  rw [h1, h2]
  exact ⟨rfl, rfl⟩

/-- C9 witness: the resolver at a concrete plan, store and inputs. -/
theorem C9_witness :
    (get_annotator_split_with_iaa detPRNG cfg2 items10 "t" (fun _ l => l) 0 items10 store0).2
        = store0 ∧
      (get_annotator_split_with_iaa detPRNG cfg2 items10 "t" (fun _ l => l) 0 items10 store0).1
        = (get_annotator_split_with_iaa detPRNG cfg2 items10 "u" (fun _ l => l) 0 items10 store0).1 :=
  C9_resolver_no_effects plan0 detPRNG detPRNG cfg2 cfg2 items10 items10 "t" "u"
    (fun _ l => l) 0 items10 store0 store0 rfl rfl

/-- Membership is preserved by first-occurrence deduplication. -/
theorem mem_firstOccurrences {α : Type} [DecidableEq α] (l : List α) (x : α) :
    x ∈ firstOccurrences l ↔ x ∈ l := by
  induction l with
  | nil => simp [firstOccurrences]
  | cons a as ih =>
    simp only [firstOccurrences, List.mem_cons, List.mem_filter, decide_eq_true_eq]
    constructor
    · rintro (rfl | ⟨hm, _⟩)
      · exact Or.inl rfl
      · exact Or.inr (ih.1 hm)
    · rintro (rfl | hm)
      · exact Or.inl rfl
      · by_cases hx : x = a
        · exact Or.inl hx
        · exact Or.inr ⟨ih.2 hm, hx⟩

/-- Scanning counter entries with `mcStep` starting from an incumbent yields
an entry whose count dominates the incumbent's and every scanned element's. -/
theorem mcStep_foldl {α : Type} [DecidableEq α] (l : List α) (fo : List α) :
    ∀ b : α, ∃ c, fo.foldl (mcStep l) (some (b, l.count b)) = some (c, l.count c) ∧
      l.count b ≤ l.count c ∧ ∀ x ∈ fo, l.count x ≤ l.count c := by
  induction fo with
  | nil =>
    intro b
    exact ⟨b, rfl, le_refl _, by intro x hx; cases hx⟩
  | cons a as ih =>
    intro b
    rw [List.foldl_cons]
    by_cases h : l.count a > l.count b
    · have hs : mcStep l (some (b, l.count b)) a = some (a, l.count a) := by
        simp [mcStep, h]
      rw [hs]
      obtain ⟨c, hc, hle, hall⟩ := ih a
      refine ⟨c, hc, le_trans (le_of_lt h) hle, ?_⟩
      intro x hx
      rcases List.mem_cons.1 hx with rfl | hxs
      · exact hle
      · exact hall x hxs
    · have hs : mcStep l (some (b, l.count b)) a = some (b, l.count b) := by
        simp [mcStep, h]
      rw [hs]
      obtain ⟨c, hc, hle, hall⟩ := ih b
      refine ⟨c, hc, hle, ?_⟩
      intro x hx
      rcases List.mem_cons.1 hx with rfl | hxs
      · exact le_trans (Nat.le_of_not_lt h) hle
      · exact hall x hxs

/-- On a nonempty list, `most_common1` returns an element together with its
count, and that count is maximal among all counts. -/
theorem most_common1_spec {α : Type} [DecidableEq α] (l : List α) (hl : l ≠ []) :
    ∃ c, most_common1 l = some (c, l.count c) ∧ ∀ x : α, l.count x ≤ l.count c := by
  cases hfo : firstOccurrences l with
  | nil =>
    exfalso
    cases l with
    | nil => exact hl rfl
    | cons a as =>
      have hmem : a ∈ firstOccurrences (a :: as) :=
        (mem_firstOccurrences _ _).2 (List.mem_cons_self a as)
      rw [hfo] at hmem
      cases hmem
  | cons a fo =>
    unfold most_common1
    rw [hfo, List.foldl_cons]
    have hstep : mcStep l none a = some (a, l.count a) := rfl
    rw [hstep]
    obtain ⟨c, hc, hle, hall⟩ := mcStep_foldl l fo a
    refine ⟨c, hc, ?_⟩
    intro x
    by_cases hx : x ∈ l
    · have hxf : x ∈ firstOccurrences l := (mem_firstOccurrences _ _).2 hx
      rw [hfo] at hxf
      rcases List.mem_cons.1 hxf with rfl | hxs
      · exact hle
      · exact hall x hxs
    · rw [List.count_eq_zero.2 hx]
      exact Nat.zero_le _

/-- The resolution status is computed from the winner's count and the total. -/
theorem resolve_status_eq (item_data : Item) (anns : List VoteEntry) :
    (resolve_overlap_item item_data anns).resolution_status
      = if 2 * ((most_common1 (anns.map (fun a => a.ann.event_type))).getD (none, 0)).2
            > anns.length
        then "majority_vote" else "needs_adjudication" := rfl

/-- The agreement string is the winner's count over the total. -/
theorem resolve_agreement_eq (item_data : Item) (anns : List VoteEntry) :
    (resolve_overlap_item item_data anns).agreement_str
      = toString ((most_common1 (anns.map (fun a => a.ann.event_type))).getD (none, 0)).2
          ++ "/" ++ toString anns.length := rfl

/-- C4: for every overlap item with at least one collected vote, the winner
reported by the counter has the maximal `event_type` vote count, the merged
record's `resolution_status` is `majority_vote` iff twice that count strictly
exceeds the total number of votes (else `needs_adjudication`), and
`agreement_ratio` is the string `"winnerCount/totalVotes"`; concretely, votes
{A, A, B} yield winner A, status `majority_vote` and ratio `"2/3"`, while
votes {A, B, C} yield `needs_adjudication`. -/
theorem C4_majority_vote (item_data : Item) (anns : List VoteEntry) (hne : anns ≠ []) :
    majorityResolutionSpec item_data anns ∧
      (resolve_overlap_item item0 votesAAB).ann.event_type = some ("A") ∧
      (resolve_overlap_item item0 votesAAB).resolution_status = "majority_vote" ∧
      (resolve_overlap_item item0 votesAAB).agreement_str = "2/3" ∧
      (resolve_overlap_item item0 votesABC).resolution_status = "needs_adjudication" := by
  refine ⟨⟨?_, ?_, resolve_agreement_eq item_data anns⟩, by decide, by decide, by decide, by decide⟩
  · obtain ⟨c, hc, hall⟩ :=
      most_common1_spec (anns.map (fun a => a.ann.event_type)) (by simpa using hne)
    intro v
    rw [hc]
    exact hall v
  · rw [resolve_status_eq]
    constructor
    · intro hs
      by_contra h
      rw [if_neg h] at hs
      exact absurd hs (by decide)
    · intro h
      rw [if_pos h]

/-- C4 witness: the general part instantiated at the {A, A, B} example. -/
theorem C4_witness :
    majorityResolutionSpec item0 votesAAB ∧
      (resolve_overlap_item item0 votesAAB).ann.event_type = some ("A") ∧
      (resolve_overlap_item item0 votesAAB).resolution_status = "majority_vote" ∧
      (resolve_overlap_item item0 votesAAB).agreement_str = "2/3" ∧
      (resolve_overlap_item item0 votesABC).resolution_status = "needs_adjudication" :=
  C4_majority_vote item0 votesAAB (by decide)

/-- If either list is empty the common set is empty, hence smaller than 2. -/
theorem commonIds_card_lt_of_empt {l1 l2 : List AnnRecord}
    (h : (l1.isEmpty || l2.isEmpty) = true) : (commonIds l1 l2).card < 2 := by
  rcases Bool.or_eq_true_iff.mp h with h1 | h2
  · have he : l1 = [] := by simpa using h1
    subst he
    simp [commonIds, annIds]
  · have he : l2 = [] := by simpa using h2
    subst he
    simp [commonIds, annIds]

/-- C5: Cohen's kappa returns the explicit undefined value `none` exactly when
the two annotators' annotated item-id sets share fewer than two common items;
the model is a total function (the source has no raising path here), and in
the undefined case the result is `none`, never `0`. -/
theorem C5_cohen_none_iff (k : AnnValue → Option String) (l1 l2 : List AnnRecord) :
    calculate_cohen_kappa k l1 l2 = none ↔ (commonIds l1 l2).card < 2 := by
  simp only [calculate_cohen_kappa]
  by_cases he : (l1.isEmpty || l2.isEmpty) = true
  · rw [if_pos he]
    simp [commonIds_card_lt_of_empt he]
  · rw [if_neg he]
    by_cases hc : (commonIds l1 l2).card < 2
    · rw [if_pos hc]
      simp [hc]
    · rw [if_neg hc]
      by_cases hp : peVal k l1 l2 = 1
      · rw [if_pos hp]
        simp [hc]
      · rw [if_neg hp]
        simp [hc]

/-- The common set is symmetric. -/
theorem commonIds_comm (l1 l2 : List AnnRecord) : commonIds l1 l2 = commonIds l2 l1 :=
  Finset.inter_comm _ _

/-- The observed-agreement count is symmetric. -/
theorem agreeCount_comm (k : AnnValue → Option String) (l1 l2 : List AnnRecord) :
    agreeCount k l1 l2 = agreeCount k l2 l1 := by
  unfold agreeCount
  rw [commonIds_comm]
  congr 1
  apply Finset.filter_congr
  intro i _
  exact eq_comm

/-- The observed value set is symmetric. -/
theorem allVals_comm (k : AnnValue → Option String) (l1 l2 : List AnnRecord) :
    allVals k l1 l2 = allVals k l2 l1 := by
  unfold allVals
  rw [commonIds_comm]
  exact Finset.union_comm _ _

/-- The expected chance agreement is symmetric. -/
theorem peVal_comm (k : AnnValue → Option String) (l1 l2 : List AnnRecord) :
    peVal k l1 l2 = peVal k l2 l1 := by
  simp only [peVal]
  rw [commonIds_comm, allVals_comm]
  exact Finset.sum_congr rfl (fun v _ => mul_comm _ _)

/-- C6: Cohen's kappa is symmetric — comparing annotator A against B equals
comparing B against A, for every compared key. -/
theorem C6_cohen_symm (k : AnnValue → Option String) (l1 l2 : List AnnRecord) :
    calculate_cohen_kappa k l1 l2 = calculate_cohen_kappa k l2 l1 := by
  simp only [calculate_cohen_kappa]
  rw [Bool.or_comm, commonIds_comm, agreeCount_comm, peVal_comm]

/-- The annotators selected in one distribution round are pairwise distinct
and exactly min(overlap_annotators, num_annotators) many: the scored list is a
permutation of range num_annotators, and a prefix of it is taken. -/
theorem selectAnnotators_spec (tb : Nat → ℚ) (counts : Nat → Nat) (n oa : Nat) :
    (selectAnnotators tb counts n oa).Nodup ∧
      (selectAnnotators tb counts n oa).length = min oa n := by
  have key : selectAnnotators tb counts n oa
      = ((((List.range n).map (fun i => (i, counts i, tb i))).insertionSort scoreLE).map
          (fun a => a.1)).take oa := by
    unfold selectAnnotators
    rw [List.map_take]
  have hperm : ((((List.range n).map (fun i => (i, counts i, tb i))).insertionSort scoreLE).map
      (fun a => a.1)).Perm (List.range n) := by
    have hp := (List.perm_insertionSort scoreLE
      ((List.range n).map (fun i => (i, counts i, tb i)))).map (fun a => a.1)
    simpa [List.map_map, Function.comp_def, List.map_id] using hp
  constructor
  · rw [key]
    exact List.Nodup.sublist (List.take_sublist _ _) (hperm.nodup_iff.mpr (List.nodup_range n))
  · rw [key, List.length_take, hperm.length_eq, List.length_range]

/-- The assignment fold keys the entries by the overlap ids in order and
builds every entry with `selectAnnotators`, whatever the running counts are. -/
theorem overlapFold_spec (prng : PRNG) (n oa : Nat) :
    ∀ (ids : List Nat) (round : Nat) (counts : Nat → Nat),
      (overlapFold prng n oa ids round counts).map Prod.fst = ids ∧
        ∀ p ∈ overlapFold prng n oa ids round counts,
          p.2.Nodup ∧ p.2.length = min oa n := by
  intro ids
  induction ids with
  | nil =>
    intro round counts
    exact ⟨rfl, by intro p hp; cases hp⟩
  | cons id rest ih =>
    intro round counts
    constructor
    · simp only [overlapFold, List.map_cons]
      rw [(ih _ _).1]
    · intro p hp
      simp only [overlapFold] at hp
      rcases List.mem_cons.mp hp with rfl | hmem
      · exact selectAnnotators_spec (prng.tiebreak round) counts n oa
      · exact (ih _ _).2 p hmem

/-- C3: in every generated plan the keys of `overlap_assignments` are exactly
the overlap item ids, in order (so each overlap item has exactly one entry),
and every entry assigns its item to exactly
min(overlapMultiplicity, numAnnotators) distinct annotator ids. -/
theorem C3_overlap_multiplicity (prng : PRNG) (all_data : List Item) (config : Config)
    (now : String) :
    ((generate_split_metadata prng all_data config now).overlap_assignments).map Prod.fst
        = (generate_split_metadata prng all_data config now).overlap_item_ids ∧
      ∀ p ∈ (generate_split_metadata prng all_data config now).overlap_assignments,
        p.2.Nodup ∧
          p.2.length = min (config.overlap_annotators.getD 3) config.num_annotators :=
  overlapFold_spec prng config.num_annotators (config.overlap_annotators.getD 3)
    ((generate_split_metadata prng all_data config now).overlap_item_ids) 0 (fun _ => 0)

/-- Sorting is a permutation. -/
theorem pySorted_perm (l : List Nat) : (pySorted l).Perm l := List.perm_insertionSort _ _

/-- Summing an indicator function over `range n` picks out the one match. -/
theorem sum_map_range_ite (m c n : Nat) (h : m < n) :
    ((List.range n).map (fun a => if m = a then c else 0)).sum = c := by
  induction n with
  | zero => exact absurd h (Nat.not_lt_zero m)
  | succ n ih =>
    rw [List.range_succ, List.map_append, List.sum_append]
    by_cases hm : m = n
    · subst hm
      have h0 : ((List.range m).map (fun a => if m = a then c else 0)).sum = 0 := by
        apply List.sum_eq_zero
        intro x hx
        obtain ⟨a, ha, rfl⟩ := List.mem_map.mp hx
        rw [if_neg]
        intro hh
        subst hh
        exact absurd (List.mem_range.mp ha) (lt_irrefl m)
      rw [h0]
      simp
    · have hlt : m < n := by omega
      rw [ih hlt]
      simp [hm]

/-- Each pair lands in exactly the residue class of its index, so the classes
of `range n` jointly enumerate the list exactly once. -/
theorem flatten_residue_perm {α : Type} [DecidableEq α] (n : Nat) (hn : 0 < n)
    (e : List (Nat × α)) :
    (((List.range n).map (fun a => e.filter (fun p => p.1 % n = a))).flatten).Perm e := by
  rw [List.perm_iff_count]
  intro x
  rw [@List.count_flatten (Nat × α) instBEqOfDecidableEq x
    ((List.range n).map (fun a => e.filter (fun p => p.1 % n = a))), List.map_map]
  have hcongr : (List.range n).map
        (@List.count (Nat × α) instBEqOfDecidableEq x ∘ fun a => e.filter (fun p => p.1 % n = a))
      = (List.range n).map
        (fun a => if x.1 % n = a then @List.count (Nat × α) instBEqOfDecidableEq x e else 0) := by
    apply List.map_congr_left
    intro a _
    simp only [Function.comp_apply]
    by_cases h : x.1 % n = a
    · rw [if_pos h]
      exact @List.count_filter (Nat × α) instBEqOfDecidableEq instLawfulBEq _ _ _
        (by simpa using h)
    · rw [if_neg h]
      refine (@List.count_eq_zero (Nat × α) instBEqOfDecidableEq instLawfulBEq _ _).mpr ?_
      intro hmem
      exact h (by simpa using (List.mem_filter.mp hmem).2)
  rw [hcongr, sum_map_range_ite _ _ _ (Nat.mod_lt _ hn)]

/-- Round-robin distribution over a positive number of annotators enumerates
the distributed ids exactly once. -/
theorem roundRobin_flatten_perm (n : Nat) (hn : 0 < n) (ids : List Nat) :
    (((roundRobin n ids).map Prod.snd).flatten).Perm ids := by
  have h1 : (roundRobin n ids).map Prod.snd
      = ((List.range n).map (fun a => ids.enum.filter (fun p => p.1 % n = a))).map
          (List.map Prod.snd) := by
    simp [roundRobin, List.map_map, Function.comp_def]
  rw [h1, ← List.map_flatten]
  have h3 := (flatten_residue_perm n hn ids.enum).map Prod.snd
  rw [List.enum_map_snd] at h3
  exact h3

/-- A duplicate-free selection from a duplicate-free list, followed by the
filtered-out rest, is a permutation of the whole list. -/
theorem sel_filter_perm {o ids : List Nat} (ho : o.Nodup) (hid : ids.Nodup)
    (hsub : ∀ x ∈ o, x ∈ ids) :
    (o ++ ids.filter (fun id => id ∉ o)).Perm ids := by
  have h1 : (ids.filter (fun id => id ∈ o) ++ ids.filter (fun id => id ∉ o)).Perm ids := by
    have hp := List.filter_append_perm (fun id => decide (id ∈ o)) ids
    simpa using hp
  have h2 : o.Perm (ids.filter (fun id => id ∈ o)) := by
    rw [List.perm_ext_iff_of_nodup ho (hid.filter _)]
    intro a
    simp only [List.mem_filter, decide_eq_true_eq]
    exact ⟨fun h => ⟨hsub a h, h⟩, fun h => h.2⟩
  exact (h2.append_right _).trans h1

/-- The overlap selection plus the round-robin distribution of a shuffle of
its complement covers the id list exactly once. -/
theorem split_partition_core {ids o u : List Nat} (n : Nat) (hn : 0 < n)
    (hidnodup : ids.Nodup) (ho : o.Nodup) (hsub : ∀ x ∈ o, x ∈ ids)
    (hu : u.Perm (ids.filter (fun id => id ∉ o))) :
    (o ++ ((roundRobin n u).map Prod.snd).flatten).Perm ids :=
  (List.Perm.append_left o ((roundRobin_flatten_perm n hn u).trans hu)).trans
    (sel_filter_perm ho hidnodup hsub)

/-- The stored overlap ids are the sorted sample of the item ids. -/
theorem generate_overlap_ids_eq (prng : PRNG) (all_data : List Item) (config : Config)
    (now : String) :
    (generate_split_metadata prng all_data config now).overlap_item_ids
      = pySorted (prng.sample (all_data.map (fun it => it.id))
          (min ((Rat.ceil ((all_data.length : ℚ)
              * ((config.iaa_overlap_percent.getD 15) / 100))).toNat)
            (all_data.map (fun it => it.id)).length)) := rfl

/-- The stored unique assignments are the round-robin distribution of the
shuffled complement of the overlap ids. -/
theorem generate_unique_eq (prng : PRNG) (all_data : List Item) (config : Config)
    (now : String) :
    (generate_split_metadata prng all_data config now).unique_assignments
      = roundRobin config.num_annotators
          (prng.shuffle ((all_data.map (fun it => it.id)).filter
            (fun id =>
              id ∉ (generate_split_metadata prng all_data config now).overlap_item_ids))) :=
  rfl

/-- C1: over items with distinct ids and at least one configured annotator,
and for draws with the guarantees of `random.sample` (members of the
population, distinct when the population is) and `random.shuffle` (a
permutation), the concatenation of the plan's overlap ids with all its unique
assignment lists is a permutation of the full item-id list and has no
duplicates: every input id lands in exactly one of `overlap_item_ids` or
exactly one annotator's `unique_assignments` list, with no omissions. -/
theorem C1_partition (prng : PRNG) (all_data : List Item) (config : Config) (now : String)
    (hnodup : (all_data.map (fun it => it.id)).Nodup)
    (hn : 0 < config.num_annotators)
    (hmem : ∀ (xs : List Nat) (m : Nat) (x : Nat), x ∈ prng.sample xs m → x ∈ xs)
    (hnd : ∀ (xs : List Nat) (m : Nat), xs.Nodup → (prng.sample xs m).Nodup)
    (hsh : ∀ xs : List Nat, (prng.shuffle xs).Perm xs) :
    ((generate_split_metadata prng all_data config now).overlap_item_ids ++
        (((generate_split_metadata prng all_data config now).unique_assignments).map
          Prod.snd).flatten).Perm (all_data.map (fun it => it.id)) ∧
      ((generate_split_metadata prng all_data config now).overlap_item_ids ++
        (((generate_split_metadata prng all_data config now).unique_assignments).map
          Prod.snd).flatten).Nodup := by
  have honodup : ((generate_split_metadata prng all_data config now).overlap_item_ids).Nodup := by
    rw [generate_overlap_ids_eq]
    exact (pySorted_perm _).nodup_iff.mpr (hnd _ _ hnodup)
  have hosub : ∀ x ∈ (generate_split_metadata prng all_data config now).overlap_item_ids,
      x ∈ all_data.map (fun it => it.id) := by
    intro x hx
    rw [generate_overlap_ids_eq] at hx
    exact hmem _ _ x ((pySorted_perm _).mem_iff.mp hx)
  have hperm : ((generate_split_metadata prng all_data config now).overlap_item_ids ++
      (((generate_split_metadata prng all_data config now).unique_assignments).map
        Prod.snd).flatten).Perm (all_data.map (fun it => it.id)) := by
    rw [generate_unique_eq]
    exact split_partition_core config.num_annotators hn hnodup honodup hosub (hsh _)
  exact ⟨hperm, hperm.nodup_iff.mpr hnodup⟩

/-- C1 witness: the partition at ten concrete items, two annotators and
concrete draws satisfying the sample/shuffle guarantees. -/
theorem C1_witness :
    ((generate_split_metadata detPRNG items10 cfg2 "t").overlap_item_ids ++
        (((generate_split_metadata detPRNG items10 cfg2 "t").unique_assignments).map
          Prod.snd).flatten).Perm (items10.map (fun it => it.id)) ∧
      ((generate_split_metadata detPRNG items10 cfg2 "t").overlap_item_ids ++
        (((generate_split_metadata detPRNG items10 cfg2 "t").unique_assignments).map
          Prod.snd).flatten).Nodup :=
  C1_partition detPRNG items10 cfg2 "t" (by decide) (by decide)
    (fun xs m x h => List.mem_of_mem_take h)
    (fun xs m h => List.Nodup.sublist (List.take_sublist m xs) h)
    (fun xs => List.Perm.refl xs)

/-- A fold of `max` from `0` is either `0` or one of the list's elements. -/
theorem foldr_max_zero_or_mem (l : List Nat) : l.foldr max 0 = 0 ∨ l.foldr max 0 ∈ l := by
  induction l with
  | nil => exact Or.inl rfl
  | cons a as ih =>
    rw [List.foldr_cons]
    rcases max_choice a (as.foldr max 0) with h | h
    · rw [h]
      exact Or.inr (List.mem_cons_self a as)
    · rw [h]
      rcases ih with h0 | hm
      · exact Or.inl h0
      · exact Or.inr (List.mem_cons_of_mem a hm)

/-- When qualifying items exist, at least two categories appear and some item
has at least two counted ratings, Fleiss' kappa reaches a numeric result. -/
theorem fleiss_some_of (k : AnnValue → Option String) (all_anns : List (Nat × List VoteEntry))
    (h0 : qualifyingItems all_anns ≠ [])
    (h1 : ¬ (fleissCategories k (qualifyingItems all_anns)).card < 2)
    (h2 : ¬ fleissMaxRaters k all_anns < 2) :
    ∃ q, calculate_fleiss_kappa k all_anns = some q := by
  unfold fleissMaxRaters catsSorted at h2
  simp only [calculate_fleiss_kappa]
  rw [if_neg (by simpa using h0), if_neg h1, if_neg h2]
  have hrow : ∃ row ∈ fleissMatrix k
      (pySortedStr (firstOccurrences (fleissCatList k (qualifyingItems all_anns))))
      (qualifyingItems all_anns), 2 ≤ row.sum := by
    rcases foldr_max_zero_or_mem ((fleissMatrix k (pySortedStr (firstOccurrences
        (fleissCatList k (qualifyingItems all_anns)))) (qualifyingItems all_anns)).map
        List.sum) with hz | hm
    · rw [hz] at h2
      omega
    · obtain ⟨row, hrm, hre⟩ := List.mem_map.mp hm
      exact ⟨row, hrm, by omega⟩
  obtain ⟨row, hrm, hr2⟩ := hrow
  split
  · rename_i hempty
    exfalso
    rw [List.isEmpty_iff] at hempty
    have hall := (List.filterMap_eq_nil_iff.mp hempty) row hrm
    rw [if_neg (by omega)] at hall
    exact Option.noConfusion hall
  · split
    · exact ⟨1, rfl⟩
    · exact ⟨_, rfl⟩

/-- C7 (amended): Fleiss' kappa returns the explicit undefined value `none`
exactly when no qualifying item exists, or fewer than two distinct (truthy)
categories appear across the qualifying items, or no single item carries at
least two counted ratings (the maximal per-item rating count is below 2);
otherwise it returns a numeric value. -/
theorem C7_fleiss_none_iff (k : AnnValue → Option String)
    (all_anns : List (Nat × List VoteEntry)) :
    calculate_fleiss_kappa k all_anns = none ↔
      (qualifyingItems all_anns = [] ∨
        (fleissCategories k (qualifyingItems all_anns)).card < 2 ∨
        fleissMaxRaters k all_anns < 2) := by
  constructor
  · intro h
    by_contra hcon
    push_neg at hcon
    obtain ⟨hA, hB, hC⟩ := hcon
    obtain ⟨q, hq⟩ := fleiss_some_of k all_anns hA (by omega) (by omega)
    rw [hq] at h
    exact Option.noConfusion h
  · intro h
    rcases h with hA | hB | hC
    · simp only [calculate_fleiss_kappa]
      rw [if_pos (by simp [hA])]
    · simp only [calculate_fleiss_kappa]
      by_cases h0 : (qualifyingItems all_anns).isEmpty
      · rw [if_pos h0]
      · rw [if_neg h0, if_pos hB]
    · simp only [calculate_fleiss_kappa]
      by_cases h0 : (qualifyingItems all_anns).isEmpty
      · rw [if_pos h0]
      · rw [if_neg h0]
        by_cases h1 : (fleissCategories k (qualifyingItems all_anns)).card < 2
        · rw [if_pos h1]
        · rw [if_neg h1]
          unfold fleissMaxRaters catsSorted at hC
          rw [if_pos hC]

/-- C7 (counterexample): on `fleissBad` two qualifying items and two distinct
categories exist, yet the source returns `None` — on every item one of the two
raters' values is `None`, so no item has two counted ratings and the
`n < 2` guard fires.  This refutes the claim that the result is numeric
whenever qualifying items exist and at least two categories appear. -/
theorem C7_counterexample :
    calculate_fleiss_kappa eventTypeKey fleissBad = none ∧
      qualifyingItems fleissBad ≠ [] ∧
      2 ≤ (fleissCategories eventTypeKey (qualifyingItems fleissBad)).card := by
  refine ⟨by decide, by decide, by decide⟩

/-- First-occurrence deduplication produces a duplicate-free list. -/
theorem firstOccurrences_nodup {α : Type} [DecidableEq α] (l : List α) :
    (firstOccurrences l).Nodup := by
  induction l with
  | nil => exact List.nodup_nil
  | cons a as ih =>
    rw [firstOccurrences]
    refine List.nodup_cons.mpr ⟨?_, ih.filter _⟩
    intro hmem
    have hne := (List.mem_filter.mp hmem).2
    simp at hne

/-- Membership in the common-id list is joint membership in both id sets. -/
theorem mem_commonList (l1 l2 : List AnnRecord) (x : Nat) :
    x ∈ commonList l1 l2 ↔ (x ∈ annIds l1 ∧ x ∈ annIds l2) := by
  simp [commonList, nodupAnnIds, List.mem_filter, mem_firstOccurrences, annIds,
    List.mem_toFinset]

/-- With pairwise-distinct record ids, the by-id lookup list of a member's id
is exactly that member. -/
theorem filter_eq_singleton_of_nodup {l : List AnnRecord}
    (h : (l.map (fun a => a.id)).Nodup) {a : AnnRecord} (ha : a ∈ l) :
    l.filter (fun b => b.id == a.id) = [a] := by
  induction l with
  | nil => cases ha
  | cons x xs ih =>
    have hx : x.id ∉ xs.map (fun c => c.id) ∧ (xs.map (fun c => c.id)).Nodup := by
      rw [List.map_cons] at h
      exact List.nodup_cons.mp h
    rcases List.mem_cons.mp ha with rfl | hmem
    · rw [@List.filter_cons_of_pos AnnRecord (fun b => b.id == a.id) a xs (by simp)]
      have hnil : xs.filter (fun b => b.id == a.id) = [] := by
        refine List.filter_eq_nil_iff.mpr ?_
        intro b hb
        simp only [beq_iff_eq]
        intro hid
        exact hx.1 (List.mem_map.mpr ⟨b, hb, hid⟩)
      rw [hnil]
    · have hxid : ¬ (x.id == a.id) = true := by
        simp only [beq_iff_eq]
        intro hid
        exact hx.1 (List.mem_map.mpr ⟨a, hmem, hid.symm⟩)
      rw [@List.filter_cons_of_neg AnnRecord (fun b => b.id == a.id) x xs hxid]
      exact ih hx.2 hmem

/-- The triggers lookup written with `Option.bind`. -/
theorem itemTriggers_eq (l : List AnnRecord) (i : Nat) :
    itemTriggers l i
      = ((l.filter (fun a => a.id == i)).getLast?).bind
          (fun r => r.ann.map (fun v => v.trigger_indices.toFinset)) := by
  unfold itemTriggers
  cases (l.filter (fun a => a.id == i)).getLast? with
  | none => rfl
  | some r =>
    cases hr : r.ann with
    | none => simp [hr]
    | some v => simp [hr]

/-- With pairwise-distinct record ids, the triggers lookup of an annotated id
does not raise. -/
theorem itemTriggers_isSome_of_nodup {l : List AnnRecord}
    (h : (l.map (fun a => a.id)).Nodup) {i : Nat} (hi : i ∈ annIds l) :
    ∃ s : Finset Nat, itemTriggers l i = some s := by
  rw [annIds, List.mem_toFinset] at hi
  obtain ⟨a, ham, haid⟩ := List.mem_map.mp hi
  have hal : a ∈ l := (List.mem_filter.mp ham).1
  have hann : hasAnn a = true := (List.mem_filter.mp ham).2
  have hfil : l.filter (fun b => b.id == i) = [a] := by
    rw [← haid]
    exact filter_eq_singleton_of_nodup h hal
  obtain ⟨v, hv⟩ := Option.isSome_iff_exists.mp hann
  rw [itemTriggers_eq, hfil, List.getLast?_singleton]
  rw [Option.some_bind, hv]
  exact ⟨v.trigger_indices.toFinset, rfl⟩

/-- Rounding one to three decimals gives one. -/
theorem round3_one : round3 1 = 1 := by
  have h : ⌊(1 : ℚ) * 1000 + 1 / 2⌋ = (1000 : ℤ) := by
    rw [Int.floor_eq_iff]
    constructor <;> norm_num
  unfold round3
  rw [h]
  norm_num

/-- Rounding zero to three decimals gives zero. -/
theorem round3_zero : round3 0 = 0 := by
  have h : ⌊(0 : ℚ) * 1000 + 1 / 2⌋ = (0 : ℤ) := by
    rw [Int.floor_eq_iff]
    constructor <;> norm_num
  unfold round3
  rw [h]
  norm_num

/-- C8 (amended): for every annotation record list with pairwise-distinct
record ids and at least one annotated item, the trigger-span F1 of the list
compared against itself is 1.0 (and the call does not raise). -/
theorem C8_self_f1 (l : List AnnRecord)
    (hnd : (l.map (fun a => a.id)).Nodup)
    (hann : ∃ r ∈ l, hasAnn r = true) :
    calculate_trigger_f1 l l = some (some 1) := by
  obtain ⟨r0, hr0, hasr0⟩ := hann
  have hne : l ≠ [] := List.ne_nil_of_mem hr0
  have hemp : (l.isEmpty || l.isEmpty) = false := by
    cases l with
    | nil => exact absurd rfl hne
    | cons a as => rfl
  have hid : r0.id ∈ annIds l := by
    rw [annIds, List.mem_toFinset]
    exact List.mem_map.mpr ⟨r0, List.mem_filter.mpr ⟨hr0, hasr0⟩, rfl⟩
  have hcne : commonList l l ≠ [] :=
    List.ne_nil_of_mem ((mem_commonList l l r0.id).mpr ⟨hid, hid⟩)
  have hall : (commonList l l).all
      (fun i => (itemTriggers l i).isSome && (itemTriggers l i).isSome) = true := by
    rw [List.all_eq_true]
    intro i hi
    obtain ⟨s, hs⟩ := itemTriggers_isSome_of_nodup hnd ((mem_commonList l l i).mp hi).1
    rw [hs]
    rfl
  have hcon : (commonList l l).map (fun i =>
      let triggers1 := (itemTriggers l i).getD ∅
      let triggers2 := (itemTriggers l i).getD ∅
      if triggers1 = ∅ ∧ triggers2 = ∅ then ((1 : ℚ), (1 : ℚ))
      else
        if triggers1 ≠ ∅ ∧ triggers2 ≠ ∅ then
          (((triggers1 ∩ triggers2).card : ℚ) / triggers1.card,
            ((triggers1 ∩ triggers2).card : ℚ) / triggers2.card)
        else (0, 0))
      = (commonList l l).map (fun _ => ((1 : ℚ), (1 : ℚ))) := by
    apply List.map_congr_left
    intro i hi
    obtain ⟨s, hs⟩ := itemTriggers_isSome_of_nodup hnd ((mem_commonList l l i).mp hi).1
    rw [hs]
    simp only [Option.getD_some]
    by_cases hempty : s = ∅
    · rw [if_pos ⟨hempty, hempty⟩]
    · rw [if_neg (fun hcontra => hempty hcontra.1),
        if_pos ⟨hempty, hempty⟩, Finset.inter_self]
      have hcard : (s.card : ℚ) ≠ 0 :=
        Nat.cast_ne_zero.mpr (Finset.card_ne_zero.mpr (Finset.nonempty_iff_ne_empty.mpr hempty))
      rw [div_self hcard]
  have hlen : ((commonList l l).length : ℚ) ≠ 0 :=
    Nat.cast_ne_zero.mpr (List.length_pos.mpr hcne).ne'
  have hfst : (((commonList l l).map (fun _ => ((1 : ℚ), (1 : ℚ)))).map (fun p => p.1)).sum
      = ((commonList l l).length : ℚ) := by
    rw [List.map_map]
    rw [show ((fun p => p.1) ∘ fun _ => ((1 : ℚ), (1 : ℚ))) = (fun _ => (1 : ℚ)) from rfl]
    rw [List.map_const', List.sum_replicate, nsmul_eq_mul, mul_one]
  have hsnd : (((commonList l l).map (fun _ => ((1 : ℚ), (1 : ℚ)))).map (fun p => p.2)).sum
      = ((commonList l l).length : ℚ) := by
    rw [List.map_map]
    rw [show ((fun p => p.2) ∘ fun _ => ((1 : ℚ), (1 : ℚ))) = (fun _ => (1 : ℚ)) from rfl]
    rw [List.map_const', List.sum_replicate, nsmul_eq_mul, mul_one]
  simp only [calculate_trigger_f1]
  rw [hemp]
  rw [if_neg (by simp)]
  rw [if_neg hcne]
  rw [hall, if_pos rfl]
  rw [hcon, hfst, hsnd, div_self hlen]
  rw [if_neg (by norm_num)]
  rw [show (2 * ((1 : ℚ) * 1) / (1 + 1)) = 1 by norm_num, round3_one]

/-- C8 (counterexample): on a list holding an annotated record for item 1 and
a later record with the same id but no `annotation` key, the by-id dict keeps
the bare record, the subscript `['annotation']` raises a KeyError, so the
self-comparison produces no value at all — in particular not 1.0 — although
the list has an annotated item. -/
theorem C8_counterexample :
    (∃ r ∈ badList, hasAnn r = true) ∧
      calculate_trigger_f1 badList badList = none ∧
      calculate_trigger_f1 badList badList ≠ some (some 1) := by
  refine ⟨by decide, by decide, by decide⟩

/-- C8 witness: the self F1 at a concrete duplicate-free annotated list. -/
theorem C8_witness : calculate_trigger_f1 exN exN = some (some 1) :=
  C8_self_f1 exN (by decide) (by decide)

/-- A list with an annotated id is not the empty list. -/
theorem ne_nil_of_annIds_nonempty {l : List AnnRecord} (h : (annIds l).Nonempty) : l ≠ [] := by
  rintro rfl
  simp [annIds] at h

/-- C10: a record lacking the compared key contributes the value `none`,
which is treated as an ordinary category.  When every common item has the key
omitted on both sides, every common item counts toward observed agreement,
`none` carries the whole expected-agreement mass (`pe = 1`) and kappa is the
degenerate 1.0; and on the concrete mixed input `exN`/`exM` — the key absent
on both common items for one annotator and on one for the other — the
computation keeps those items and returns 0.0 instead of excluding them. -/
theorem C10_none_category (k : AnnValue → Option String) (l1 l2 : List AnnRecord)
    (h2 : 2 ≤ (commonIds l1 l2).card)
    (hall : ∀ i ∈ commonIds l1 l2, valueAt k l1 i = none ∧ valueAt k l2 i = none) :
    agreeCount k l1 l2 = (commonIds l1 l2).card ∧
      peVal k l1 l2 = 1 ∧
      calculate_cohen_kappa k l1 l2 = some 1 ∧
      calculate_cohen_kappa eventTypeKey exN exM = some 0 := by
  have hne : (commonIds l1 l2).Nonempty := Finset.card_pos.mp (by omega)
  have hagree : agreeCount k l1 l2 = (commonIds l1 l2).card := by
    unfold agreeCount
    congr 1
    apply Finset.filter_true_of_mem
    intro i hi
    rw [(hall i hi).1, (hall i hi).2]
  have him1 : (commonIds l1 l2).image (valueAt k l1) = {none} := by
    have heq : Set.EqOn (valueAt k l1) (fun _ => (none : Option String)) ↑(commonIds l1 l2) :=
      fun i hi => (hall i (Finset.mem_coe.mp hi)).1
    rw [Finset.image_congr heq, Finset.image_const hne]
  have him2 : (commonIds l1 l2).image (valueAt k l2) = {none} := by
    have heq : Set.EqOn (valueAt k l2) (fun _ => (none : Option String)) ↑(commonIds l1 l2) :=
      fun i hi => (hall i (Finset.mem_coe.mp hi)).2
    rw [Finset.image_congr heq, Finset.image_const hne]
  have hallv : allVals k l1 l2 = {none} := by
    rw [allVals, him1, him2, Finset.union_self]
  have hcq : ((commonIds l1 l2).card : ℚ) ≠ 0 := Nat.cast_ne_zero.mpr (by omega)
  have hpe : peVal k l1 l2 = 1 := by
    simp only [peVal]
    rw [hallv, Finset.sum_singleton]
    rw [Finset.filter_true_of_mem (fun i hi => (hall i hi).1),
      Finset.filter_true_of_mem (fun i hi => (hall i hi).2)]
    rw [div_self hcq, one_mul]
  have hl1 : l1 ≠ [] := ne_nil_of_annIds_nonempty (hne.mono Finset.inter_subset_left)
  have hl2 : l2 ≠ [] := ne_nil_of_annIds_nonempty (hne.mono Finset.inter_subset_right)
  have hc1 : calculate_cohen_kappa k l1 l2 = some 1 := by
    simp only [calculate_cohen_kappa]
    rw [if_neg (by simp [List.isEmpty_iff, hl1, hl2]), if_neg (by omega), if_pos hpe]
  have hconc : calculate_cohen_kappa eventTypeKey exN exM = some 0 := by
    have hpe2 : peVal eventTypeKey exN exM = 1 / 2 := by
      have hcom : commonIds exN exM = {1, 2} := by decide
      have hav : allVals eventTypeKey exN exM = {none, some ("X")} := by decide
      simp only [peVal]
      rw [hav, hcom]
      rw [Finset.sum_insert (by decide), Finset.sum_singleton]
      rw [show (({1, 2} : Finset Nat).filter
            (fun i => valueAt eventTypeKey exN i = none)).card = 2 from by decide,
        show (({1, 2} : Finset Nat).filter
            (fun i => valueAt eventTypeKey exM i = none)).card = 1 from by decide,
        show (({1, 2} : Finset Nat).filter
            (fun i => valueAt eventTypeKey exN i = some ("X"))).card = 0 from by decide,
        show (({1, 2} : Finset Nat).filter
            (fun i => valueAt eventTypeKey exM i = some ("X"))).card = 1 from by decide,
        show ({1, 2} : Finset Nat).card = 2 from by decide]
      norm_num
    have harg : ((agreeCount eventTypeKey exN exM : ℚ) / ((commonIds exN exM).card : ℚ)
        - 1 / 2) / (1 - 1 / 2) = 0 := by
      rw [show agreeCount eventTypeKey exN exM = 1 from by decide,
        show (commonIds exN exM).card = 2 from by decide]
      norm_num
    simp only [calculate_cohen_kappa]
    rw [if_neg (by decide), if_neg (by decide), hpe2]
    rw [if_neg (by norm_num)]
    rw [harg, round3_zero]
  exact ⟨hagree, hpe, hc1, hconc⟩

/-- C10 witness: both annotators omitting the key on two common items gives
kappa 1.0; the mixed concrete input gives 0.0. -/
theorem C10_witness :
    agreeCount eventTypeKey exN exN = (commonIds exN exN).card ∧
      peVal eventTypeKey exN exN = 1 ∧
      calculate_cohen_kappa eventTypeKey exN exN = some 1 ∧
      calculate_cohen_kappa eventTypeKey exN exM = some 0 :=
  C10_none_category eventTypeKey exN exN (by decide) (by decide)

end AppModel
